import Mathlib

/-!
Shallow embedding of the `Signal` class of `blinker/base.py` (blinker
rel-0.8) and verification of claims about its receiver registry and
dispatch engine.

Modelling conventions:
* Receiver callables are modelled by natural numbers; `hashable_identity`
  of a receiver is the number itself (an injective identity, as Python
  object identities are).
* Sender values are modelled by `Val`: the sentinel `ANY` symbol or an
  ordinary object `obj o` (Python `None` is the ordinary object `obj 0`).
  `hashable_identity` maps distinct values to distinct numbers, none of
  which equals the reserved `ANY_ID = 0`.
* Python dicts keyed by identities become functions `Nat → Option _`;
  `defaultdict(set)` reads that create missing keys are modelled
  explicitly (`ddTouch`, and the `some (… .getD ∅)` updates).  The
  `receivers` dict additionally carries its key set `rkeys` so that the
  truthiness test `if not self.receivers` is expressible.
* Weak references: a stored handle is `Handle.weak r` or
  `Handle.strong r`; whether a weakly referenced receiver is still alive
  at dispatch time is an oracle `live : Nat → Bool` (garbage collection
  is nondeterministic), and the collection callbacks `_cleanup_receiver`
  / `_cleanup_sender` are separate transition steps.
* A receiver invocation that raises is modelled by an oracle
  `cf : Nat → Val → Bool` (`cf r s = true` means calling `r` with sender
  `s` raises); `send` returns the list of invoked receivers, a flag
  telling whether an exception escaped, and the final state.
-/

namespace Blinker

/-- `ANY_ID = 0` in base.py. -/
def ANY_ID : Nat := 0

/-- A sender value: the `ANY` sentinel symbol or an ordinary object
(`obj 0` plays the role of Python `None`). -/
inductive Val where
  | any : Val
  | obj : Nat → Val
deriving DecidableEq

/-- `hashable_identity` on sender values: injective, never `ANY_ID`. -/
def hashable_identity : Val → Nat
  | Val.any => 1
  | Val.obj o => o + 2

/-- A stored receiver handle: a weakref wrapper or a strong reference,
remembering the receiver value it refers to. -/
inductive Handle where
  | strong : Nat → Handle
  | weak : Nat → Handle
deriving DecidableEq

/-- The state of one `Signal` instance: `receivers` (with its key set
`rkeys`), the `_by_sender` and `_by_receiver` defaultdicts, and the key
set of `_weak_senders`. -/
@[ext] structure SignalState where
  receivers : Nat → Option Handle
  rkeys : Finset Nat
  by_sender : Nat → Option (Finset Nat)
  by_receiver : Nat → Option (Finset Nat)
  weak_senders : Finset Nat

/-- `Signal.__init__`: all four containers empty. -/
def signalInit : SignalState :=
  { receivers := fun _ => none
    rkeys := ∅
    by_sender := fun _ => none
    by_receiver := fun _ => none
    weak_senders := ∅ }

/-- A bare `defaultdict` read `m[k]`: ensures the key exists (bound to
the empty set when it was missing). -/
def ddTouch (m : Nat → Option (Finset Nat)) (k : Nat) : Nat → Option (Finset Nat) :=
  fun j => if j = k then some ((m k).getD ∅) else m j

/-- `sender_id` resolution used by `connect` and `disconnect`:
`ANY_ID if sender is ANY else hashable_identity(sender)`. -/
def senderIdOf (sender : Val) : Nat :=
  if sender = Val.any then ANY_ID else hashable_identity sender

/-- The state mutation of `Signal.connect` (base.py lines 58-91) in the
case where no exception is raised while building the receiver weakref:
store the handle with `setdefault`, add to `_by_sender[sender_id]` and
`_by_receiver[receiver_id]`, and track the sender in `_weak_senders`
when it is not `ANY`, not yet tracked, and weak-referenceable
(`wkS sender = true`). -/
def connectOk (wkS : Val → Bool) (st : SignalState)
    (receiver : Nat) (sender : Val) (weak : Bool) : SignalState :=
  { receivers := fun i =>
      if i = receiver then
        some ((st.receivers receiver).getD
          (if weak then Handle.weak receiver else Handle.strong receiver))
      else st.receivers i
    rkeys := insert receiver st.rkeys
    by_sender := fun j =>
      if j = senderIdOf sender then
        some (insert receiver ((st.by_sender (senderIdOf sender)).getD ∅))
      else st.by_sender j
    by_receiver := fun j =>
      if j = receiver then
        some (insert (senderIdOf sender) ((st.by_receiver receiver).getD ∅))
      else st.by_receiver j
    weak_senders :=
      if sender ≠ Val.any ∧ senderIdOf sender ∉ st.weak_senders ∧ wkS sender = true
      then insert (senderIdOf sender) st.weak_senders
      else st.weak_senders }

/-- `Signal.connect` up to (but not including) the meta-signal
broadcast: when `weak` was requested and the receiver is not
weak-referenceable (`wkR receiver = false`), `reference(receiver, …)`
raises `TypeError` before any state is touched; otherwise the
registration of `connectOk` happens.  The sender-side `reference(…)`
`TypeError` is caught (`wkS` only governs `_weak_senders`). -/
def connectCore (wkS : Val → Bool) (wkR : Nat → Bool) (st : SignalState)
    (receiver : Nat) (sender : Val) (weak : Bool) : Except Unit SignalState :=
  if weak = true ∧ wkR receiver = false then Except.error ()
  else Except.ok (connectOk wkS st receiver sender weak)

/-- `Signal._disconnect` (base.py lines 190-198).  For `ANY_ID`:
`_by_receiver.pop(receiver_id, False)` always drops the key, and the
`_by_sender` buckets are purged only when the popped set was truthy
(present and non-empty); `receivers.pop` always happens.  For a specific
sender: only `self._by_sender[sender_id].discard(receiver_id)` runs —
note the `defaultdict` read creates the key when it was absent, and
`_by_receiver` is left untouched. -/
def _disconnect (st : SignalState) (receiver_id sender_id : Nat) : SignalState :=
  if sender_id = ANY_ID then
    { receivers := fun i => if i = receiver_id then none else st.receivers i
      rkeys := st.rkeys.erase receiver_id
      by_sender :=
        if (st.by_receiver receiver_id).getD ∅ ≠ ∅
        then fun j => (st.by_sender j).map (fun b => b.erase receiver_id)
        else st.by_sender
      by_receiver := fun j => if j = receiver_id then none else st.by_receiver j
      weak_senders := st.weak_senders }
  else
    { st with by_sender := fun j =>
        if j = sender_id then some (((st.by_sender sender_id).getD ∅).erase receiver_id)
        else st.by_sender j }

/-- `Signal.disconnect` (base.py lines 181-188). -/
def disconnect (st : SignalState) (receiver : Nat) (sender : Val) : SignalState :=
  _disconnect st receiver (senderIdOf sender)

/-- `Signal._cleanup_receiver`: disconnect the collected receiver from
all senders. -/
def _cleanup_receiver (st : SignalState) (receiver_id : Nat) : SignalState :=
  _disconnect st receiver_id ANY_ID

/-- `Signal._cleanup_sender` (base.py lines 204-210): drop the weak
sender entry, pop the whole `_by_sender[sender_id]` bucket, and for each
receiver identity in it discard `sender_id` from its `_by_receiver` set
(a `defaultdict` read, so those keys are created when absent). -/
def _cleanup_sender (st : SignalState) (sender_id : Nat) : SignalState :=
  { receivers := st.receivers
    rkeys := st.rkeys
    by_sender := fun j => if j = sender_id then none else st.by_sender j
    by_receiver := fun r =>
      if r ∈ (st.by_sender sender_id).getD ∅ then
        some (((st.by_receiver r).getD ∅).erase sender_id)
      else st.by_receiver r
    weak_senders := st.weak_senders.erase sender_id }

/-- `Signal._clear_state`. -/
def _clear_state (_st : SignalState) : SignalState := signalInit

/-- `Signal.has_receivers_for` (base.py lines 138-152): false when
`receivers` is empty; true when the `ANY_ID` bucket is non-empty; false
for the `ANY` sentinel; otherwise tests *key presence* of the sender's
identity in `_by_sender`. -/
def has_receivers_for (st : SignalState) (sender : Val) : Bool :=
  if st.rkeys = ∅ then false
  else if ((st.by_sender ANY_ID).getD ∅) ≠ ∅ then true
  else if sender = Val.any then false
  else (st.by_sender (hashable_identity sender)).isSome

/-- The candidate receiver-identity set of `receivers_for` (base.py
lines 158-167): the union of the `ANY_ID` bucket with the sender's
bucket when the sender's identity is a `_by_sender` key, else the
`ANY_ID` bucket alone. -/
def candidateIds (st : SignalState) (sender_id : Nat) : Finset Nat :=
  if (st.by_sender sender_id).isSome
  then (st.by_sender ANY_ID).getD ∅ ∪ (st.by_sender sender_id).getD ∅
  else (st.by_sender ANY_ID).getD ∅

/-- The loop body of `receivers_for` over the snapshot of candidate ids:
skip ids with no stored handle; yield strong handles; resolve weak
handles against the liveness oracle, disconnecting dead ones from
`ANY_ID` inline. -/
def receiversForLoop (live : Nat → Bool) :
    List Nat → SignalState → List Nat × SignalState
  | [], st => ([], st)
  | i :: rest, st =>
    match st.receivers i with
    | none => receiversForLoop live rest st
    | some (Handle.strong r) =>
      let p := receiversForLoop live rest st
      (r :: p.1, p.2)
    | some (Handle.weak r) =>
      if live r then
        let p := receiversForLoop live rest st
        (r :: p.1, p.2)
      else receiversForLoop live rest (_disconnect st i ANY_ID)

/-- `Signal.receivers_for`, fully consumed (base.py lines 155-178):
yields nothing when `receivers` is empty; otherwise snapshots the
candidate id set (the `defaultdict` reads create the `ANY_ID` key) and
iterates it.  Python set iteration order is unspecified; the ids are
iterated here in increasing order. -/
def receivers_for (live : Nat → Bool) (st : SignalState) (sender : Val) :
    List Nat × SignalState :=
  if st.rkeys = ∅ then ([], st)
  else
    let ids := candidateIds st (hashable_identity sender)
    receiversForLoop live (ids.sort (· ≤ ·))
      { st with by_sender := ddTouch st.by_sender ANY_ID }

/-- The dispatch loop of `send`: consume `receivers_for` lazily,
invoking each live receiver as it is yielded.  Returns the receivers
invoked so far (in order), whether an invocation raised (aborting the
rest), and the final state. -/
def sendLoop (live : Nat → Bool) (cf : Nat → Val → Bool) (sender : Val) :
    List Nat → SignalState → List Nat × Bool × SignalState
  | [], st => ([], false, st)
  | i :: rest, st =>
    match st.receivers i with
    | none => sendLoop live cf sender rest st
    | some (Handle.strong r) =>
      if cf r sender then ([r], true, st)
      else
        let p := sendLoop live cf sender rest st
        (r :: p.1, p.2.1, p.2.2)
    | some (Handle.weak r) =>
      if live r then
        if cf r sender then ([r], true, st)
        else
          let p := sendLoop live cf sender rest st
          (r :: p.1, p.2.1, p.2.2)
      else sendLoop live cf sender rest (_disconnect st i ANY_ID)

/-- `Signal.send` (base.py lines 110-136): more than one positional
sender raises `TypeError`; no positional sender means `None`
(`Val.obj 0`); with no receivers at all the empty list is returned
untouched; otherwise dispatch via `receivers_for`. -/
def send (live : Nat → Bool) (cf : Nat → Val → Bool) (st : SignalState)
    (args : List Val) : List Nat × Bool × SignalState :=
  if args.length > 1 then ([], true, st)
  else
    let sender := args.headD (Val.obj 0)
    if st.rkeys = ∅ then ([], false, st)
    else
      let ids := candidateIds st (hashable_identity sender)
      sendLoop live cf sender (ids.sort (· ≤ ·))
        { st with by_sender := ddTouch st.by_sender ANY_ID }

/-- `Signal.connect` including the meta-signal broadcast (base.py lines
97-107): after the registration, when the `receiver_connected` signal
has receivers and `self` is not that signal, `receiver_connected.send`
fires with `self` as sender; if it raises, the just-added pairing is
disconnected and the exception re-raised.  Returns the outcome together
with the resulting states of `self` and of the meta signal. -/
def connect (wkS : Val → Bool) (wkR : Nat → Bool) (live : Nat → Bool)
    (cf : Nat → Val → Bool) (selfIsMeta : Bool) (selfVal : Val)
    (st meta : SignalState) (receiver : Nat) (sender : Val) (weak : Bool) :
    Except Unit Nat × SignalState × SignalState :=
  match connectCore wkS wkR st receiver sender weak with
  | Except.error _ => (Except.error (), st, meta)
  | Except.ok st1 =>
    if meta.rkeys ≠ ∅ ∧ selfIsMeta = false then
      match send live cf meta [selfVal] with
      | (_, true, meta1) => (Except.error (), disconnect st1 receiver sender, meta1)
      | (_, false, meta1) => (Except.ok receiver, st1, meta1)
    else (Except.ok receiver, st1, meta)

/-- The states of one `Signal` reachable from `__init__` by any
sequence of `connect` registrations, `send` dispatches (with arbitrary
liveness / raising oracles), `disconnect` calls, and the two collection
callbacks (`_cleanup_sender` asserts its id is not `ANY_ID`). -/
inductive Reachable : SignalState → Prop where
  | init : Reachable signalInit
  | connect_step (wkS : Val → Bool) (r : Nat) (s : Val) (w : Bool) {st : SignalState} :
      Reachable st → Reachable (connectOk wkS st r s w)
  | send_step (live : Nat → Bool) (cf : Nat → Val → Bool) (args : List Val)
      {st : SignalState} : Reachable st → Reachable (send live cf st args).2.2
  | disconnect_step (r : Nat) (s : Val) {st : SignalState} :
      Reachable st → Reachable (disconnect st r s)
  | cleanup_receiver_step (rid : Nat) {st : SignalState} :
      Reachable st → Reachable (_cleanup_receiver st rid)
  | cleanup_sender_step (sid : Nat) {st : SignalState} :
      Reachable st → sid ≠ ANY_ID → Reachable (_cleanup_sender st sid)

/-! ### Invariants of reachable states -/

/-- Every membership `r ∈ _by_sender[s]` is recorded in
`_by_receiver[r]`.  (The converse containment is *not* an invariant:
a sender-specific `_disconnect` leaves `_by_receiver` stale.) -/
def InvSub (st : SignalState) : Prop :=
  ∀ r s, r ∈ (st.by_sender s).getD ∅ → s ∈ (st.by_receiver r).getD ∅

/-- Every stored handle refers to the receiver whose identity keys it. -/
def HandleWF (st : SignalState) : Prop :=
  ∀ i h, st.receivers i = some h → h = Handle.strong i ∨ h = Handle.weak i

/-- The conjunction of the two registry invariants. -/
def Inv (st : SignalState) : Prop := InvSub st ∧ HandleWF st

lemma hashable_identity_ne_any_id (v : Val) : hashable_identity v ≠ ANY_ID := by
  cases v <;> simp [hashable_identity, ANY_ID]

lemma inv_init : Inv signalInit := by
  refine ⟨fun r s h => ?_, fun i h hh => ?_⟩
  · simp [signalInit] at h
  · simp [signalInit] at hh

lemma inv_connectOk (wkS : Val → Bool) (st : SignalState) (r : Nat) (s : Val) (w : Bool)
    (h : Inv st) : Inv (connectOk wkS st r s w) := by
  obtain ⟨hsub, hwf⟩ := h
  constructor
  · intro r' s' hm
    simp only [connectOk] at hm ⊢
    by_cases hs : s' = senderIdOf s
    · subst hs
      rw [if_pos rfl] at hm
      simp only [Option.getD_some] at hm
      rcases Finset.mem_insert.1 hm with h1 | h1
      · subst h1
        rw [if_pos rfl]
        exact Finset.mem_insert_self _ _
      · have h2 := hsub r' _ h1
        by_cases hr : r' = r
        · subst hr; rw [if_pos rfl]
          exact Finset.mem_insert_of_mem h2
        · rw [if_neg hr]; exact h2
    · rw [if_neg hs] at hm
      have h2 := hsub r' s' hm
      by_cases hr : r' = r
      · subst hr; rw [if_pos rfl]
        exact Finset.mem_insert_of_mem h2
      · rw [if_neg hr]; exact h2
  · intro i hh hmem
    simp only [connectOk] at hmem
    by_cases hi : i = r
    · subst hi
      rw [if_pos rfl] at hmem
      cases hrec : st.receivers i with
      | none =>
        rw [hrec] at hmem
        simp only [Option.getD_none] at hmem
        cases w with
        | true => right; simpa using hmem.symm
        | false => left; simpa using hmem.symm
      | some h0 =>
        rw [hrec] at hmem
        simp only [Option.getD_some] at hmem
        exact (Option.some_inj.1 hmem) ▸ hwf i h0 hrec
    · rw [if_neg hi] at hmem
      exact hwf i hh hmem

lemma inv_disconnectCore (st : SignalState) (rid sid : Nat) (h : Inv st) :
    Inv (_disconnect st rid sid) := by
  obtain ⟨hsub, hwf⟩ := h
  by_cases hs : sid = ANY_ID
  · subst hs
    constructor
    · intro r' s' hm
      simp only [_disconnect, if_pos] at hm ⊢
      by_cases hp : (st.by_receiver rid).getD ∅ ≠ ∅
      · rw [if_pos hp] at hm
        cases hb : st.by_sender s' with
        | none => rw [hb] at hm; simp at hm
        | some b =>
          rw [hb] at hm
          simp only [Option.map_some', Option.getD_some] at hm
          have hr' : r' ≠ rid := fun hh => (Finset.not_mem_erase r' b (hh ▸ hm)).elim
          rw [if_neg hr']
          exact hsub r' s' (by rw [hb]; exact Finset.mem_of_mem_erase hm)
      · rw [if_neg hp] at hm
        push_neg at hp
        have h2 := hsub r' s' hm
        by_cases hr : r' = rid
        · subst hr; rw [hp] at h2; simp at h2
        · rw [if_neg hr]; exact h2
    · intro i hh hmem
      simp only [_disconnect, if_pos] at hmem
      by_cases hi : i = rid
      · rw [if_pos hi] at hmem; exact absurd hmem (by simp)
      · rw [if_neg hi] at hmem; exact hwf i hh hmem
  · constructor
    · intro r' s' hm
      simp only [_disconnect, if_neg hs] at hm ⊢
      by_cases hs' : s' = sid
      · subst hs'
        rw [if_pos rfl] at hm
        simp only [Option.getD_some] at hm
        exact hsub r' _ (Finset.mem_of_mem_erase hm)
      · rw [if_neg hs'] at hm
        exact hsub r' s' hm
    · intro i hh hmem
      simp only [_disconnect, if_neg hs] at hmem
      exact hwf i hh hmem

lemma inv_cleanup_sender (st : SignalState) (sid : Nat) (h : Inv st) :
    Inv (_cleanup_sender st sid) := by
  obtain ⟨hsub, hwf⟩ := h
  constructor
  · intro r' s' hm
    simp only [_cleanup_sender] at hm ⊢
    by_cases hs' : s' = sid
    · rw [if_pos hs'] at hm; simp at hm
    · rw [if_neg hs'] at hm
      have h2 := hsub r' s' hm
      by_cases hr : r' ∈ (st.by_sender sid).getD ∅
      · rw [if_pos hr]
        simp only [Option.getD_some]
        exact Finset.mem_erase.2 ⟨hs', h2⟩
      · rw [if_neg hr]; exact h2
  · intro i hh hmem
    simp only [_cleanup_sender] at hmem
    exact hwf i hh hmem

lemma inv_touch (st : SignalState) (k : Nat) (h : Inv st) :
    Inv { st with by_sender := ddTouch st.by_sender k } := by
  obtain ⟨hsub, hwf⟩ := h
  constructor
  · intro r' s' hm
    simp only [ddTouch] at hm
    by_cases hs' : s' = k
    · rw [if_pos hs'] at hm
      simp only [Option.getD_some] at hm
      exact hsub r' s' (hs' ▸ hm)
    · rw [if_neg hs'] at hm
      exact hsub r' s' hm
  · intro i hh hmem
    exact hwf i hh hmem

lemma inv_sendLoop (live : Nat → Bool) (cf : Nat → Val → Bool) (sender : Val) :
    ∀ (l : List Nat) (st : SignalState), Inv st → Inv (sendLoop live cf sender l st).2.2 := by
  intro l
  induction l with
  | nil => intro st h; simpa [sendLoop] using h
  | cons i rest ih =>
    intro st h
    cases hrec : st.receivers i with
    | none => simpa [sendLoop, hrec] using ih st h
    | some hd =>
      cases hd with
      | strong r =>
        by_cases hcf : cf r sender
        · simpa [sendLoop, hrec, hcf] using h
        · simpa [sendLoop, hrec, hcf] using ih st h
      | weak r =>
        by_cases hl : live r
        · by_cases hcf : cf r sender
          · simpa [sendLoop, hrec, hl, hcf] using h
          · simpa [sendLoop, hrec, hl, hcf] using ih st h
        · simpa [sendLoop, hrec, hl] using
            ih (_disconnect st i ANY_ID) (inv_disconnectCore st i ANY_ID h)

lemma inv_send (live : Nat → Bool) (cf : Nat → Val → Bool) (st : SignalState)
    (args : List Val) (h : Inv st) : Inv (send live cf st args).2.2 := by
  by_cases hlen : args.length > 1
  · simpa [send, hlen] using h
  · by_cases hk : st.rkeys = ∅
    · simpa [send, hlen, hk] using h
    · simpa [send, hlen, hk] using
        inv_sendLoop live cf (args.headD (Val.obj 0)) _ _ (inv_touch st ANY_ID h)

/-- Both registry invariants hold in every reachable state. -/
lemma reachable_inv {st : SignalState} (h : Reachable st) : Inv st := by
  induction h with
  | init => exact inv_init
  | connect_step wkS r s w _ ih => exact inv_connectOk wkS _ r s w ih
  | send_step live cf args _ ih => exact inv_send live cf _ args ih
  | disconnect_step r s _ ih => exact inv_disconnectCore _ r _ ih
  | cleanup_receiver_step rid _ ih => exact inv_disconnectCore _ rid ANY_ID ih
  | cleanup_sender_step sid _ _ ih => exact inv_cleanup_sender _ sid ih

/-! ### Characterization of dispatch -/

/-- Whether the candidate id `i` is yielded by the `receivers_for` loop
from state `st`: it has a stored handle, and a weak handle must still
resolve under the liveness oracle. -/
def liveAt (live : Nat → Bool) (st : SignalState) (i : Nat) : Bool :=
  match st.receivers i with
  | none => false
  | some (Handle.strong _) => true
  | some (Handle.weak _) => live i

lemma disconnectCore_receivers_ne (st : SignalState) (rid sid j : Nat) (h : j ≠ rid) :
    (_disconnect st rid sid).receivers j = st.receivers j := by
  by_cases hs : sid = ANY_ID
  · simp only [_disconnect, if_pos hs, if_neg h]
  · simp only [_disconnect, if_neg hs]

lemma handleWF_disconnectCore (st : SignalState) (rid sid : Nat) (hwf : HandleWF st) :
    HandleWF (_disconnect st rid sid) := by
  intro i h hmem
  by_cases hs : sid = ANY_ID
  · simp only [_disconnect, if_pos hs] at hmem
    by_cases hi : i = rid
    · rw [if_pos hi] at hmem; exact absurd hmem (by simp)
    · rw [if_neg hi] at hmem; exact hwf i h hmem
  · simp only [_disconnect, if_neg hs] at hmem
    exact hwf i h hmem

lemma mem_candidateIds (st : SignalState) (sid x : Nat)
    (h : x ∈ candidateIds st sid) :
    x ∈ (st.by_sender ANY_ID).getD ∅ ∨ x ∈ (st.by_sender sid).getD ∅ := by
  by_cases hk : (st.by_sender sid).isSome
  · rw [candidateIds, if_pos hk] at h
    exact Finset.mem_union.1 h
  · rw [candidateIds, if_neg hk] at h
    exact Or.inl h

lemma sendLoop_invoked_subset (live : Nat → Bool) (cf : Nat → Val → Bool) (sender : Val) :
    ∀ (l : List Nat) (st : SignalState), HandleWF st →
      ∀ x, x ∈ (sendLoop live cf sender l st).1 → x ∈ l := by
  intro l
  induction l with
  | nil => intro st _ x hx; simp [sendLoop] at hx
  | cons i rest ih =>
    intro st hwf x hx
    cases hrec : st.receivers i with
    | none =>
      simp only [sendLoop, hrec] at hx
      exact List.mem_cons_of_mem i (ih st hwf x hx)
    | some hd =>
      cases hd with
      | strong r =>
        have hri : r = i := by
          rcases hwf i _ hrec with h1 | h1 <;> first | (cases h1; rfl) | cases h1
        subst hri
        by_cases hcf : cf r sender
        · simp only [sendLoop, hrec, hcf, if_true] at hx
          simp at hx
          simp [hx]
        · simp only [sendLoop, hrec, hcf, if_false, Bool.false_eq_true] at hx
          rcases List.mem_cons.1 hx with h1 | h1
          · subst h1; exact List.mem_cons_self x rest
          · exact List.mem_cons_of_mem r (ih st hwf x h1)
      | weak r =>
        have hri : r = i := by
          rcases hwf i _ hrec with h1 | h1 <;> first | (cases h1; rfl) | cases h1
        subst hri
        by_cases hl : live r
        · by_cases hcf : cf r sender
          · simp only [sendLoop, hrec, hl, hcf, if_true] at hx
            simp at hx
            simp [hx]
          · simp only [sendLoop, hrec, hl, hcf, if_true, if_false,
              Bool.false_eq_true] at hx
            rcases List.mem_cons.1 hx with h1 | h1
            · subst h1; exact List.mem_cons_self x rest
            · exact List.mem_cons_of_mem r (ih st hwf x h1)
        · simp only [sendLoop, hrec, hl, Bool.false_eq_true, if_false] at hx
          exact List.mem_cons_of_mem r
            (ih _ (handleWF_disconnectCore st r ANY_ID hwf) x hx)

lemma receiversForLoop_eq_filter (live : Nat → Bool) :
    ∀ (l : List Nat) (st : SignalState), HandleWF st → l.Nodup →
      (receiversForLoop live l st).1 = l.filter (fun i => liveAt live st i) := by
  intro l
  induction l with
  | nil => intro st _ _; simp [receiversForLoop]
  | cons i rest ih =>
    intro st hwf hnd
    obtain ⟨hni, hndr⟩ := List.nodup_cons.1 hnd
    cases hrec : st.receivers i with
    | none =>
      have hla : liveAt live st i = false := by simp [liveAt, hrec]
      simp only [receiversForLoop, hrec, List.filter_cons, hla]
      simpa using ih st hwf hndr
    | some hd =>
      cases hd with
      | strong r =>
        have hri : r = i := by
          rcases hwf i _ hrec with h1 | h1 <;> first | (cases h1; rfl) | cases h1
        subst hri
        have hla : liveAt live st r = true := by simp [liveAt, hrec]
        simp only [receiversForLoop, hrec, List.filter_cons, hla, if_true]
        simpa using ih st hwf hndr
      | weak r =>
        have hri : r = i := by
          rcases hwf i _ hrec with h1 | h1 <;> first | (cases h1; rfl) | cases h1
        subst hri
        by_cases hlv : live r
        · have hla : liveAt live st r = true := by simp [liveAt, hrec, hlv]
          simp only [receiversForLoop, hrec, hlv, List.filter_cons, hla, if_true]
          simpa using ih st hwf hndr
        · have hla : liveAt live st r = false := by
            simp only [liveAt, hrec]
            exact Bool.not_eq_true _ ▸ (by simpa using hlv)
          simp only [receiversForLoop, hrec, hlv, Bool.false_eq_true, if_false,
            List.filter_cons, hla]
          rw [ih _ (handleWF_disconnectCore st r ANY_ID hwf) hndr]
          exact List.filter_congr (fun j hj => by
            simp only [liveAt, disconnectCore_receivers_ne st r ANY_ID j
              (fun hji => hni (hji ▸ hj))])

lemma mem_receivers_for (live : Nat → Bool) (st : SignalState) (sender : Val)
    (hwf : HandleWF st) (hk : st.rkeys ≠ ∅) (x : Nat) :
    x ∈ (receivers_for live st sender).1 ↔
      x ∈ candidateIds st (hashable_identity sender) ∧ liveAt live st x = true := by
  have htouch : HandleWF { st with by_sender := ddTouch st.by_sender ANY_ID } := hwf
  have hfl := receiversForLoop_eq_filter live
    ((candidateIds st (hashable_identity sender)).sort (· ≤ ·))
    { st with by_sender := ddTouch st.by_sender ANY_ID }
    htouch (Finset.sort_nodup _ _)
  simp only [receivers_for, hk, if_neg, ite_false]
  rw [hfl]
  have hla : ∀ j, liveAt live { st with by_sender := ddTouch st.by_sender ANY_ID } j
      = liveAt live st j := fun j => rfl
  simp only [List.mem_filter, Finset.mem_sort, hla]

lemma send_invoked_mem (live : Nat → Bool) (cf : Nat → Val → Bool) (st : SignalState)
    (args : List Val) (hwf : HandleWF st) (x : Nat)
    (hx : x ∈ (send live cf st args).1) :
    x ∈ candidateIds st (hashable_identity (args.headD (Val.obj 0))) := by
  by_cases hlen : args.length > 1
  · simp [send, hlen] at hx
  · by_cases hk : st.rkeys = ∅
    · simp [send, hlen, hk] at hx
    · simp only [send, hlen, hk, if_false, ite_false] at hx
      have htouch : HandleWF { st with by_sender := ddTouch st.by_sender ANY_ID } := hwf
      have hsub := sendLoop_invoked_subset live cf (args.headD (Val.obj 0))
        ((candidateIds st (hashable_identity (args.headD (Val.obj 0)))).sort (· ≤ ·))
        { st with by_sender := ddTouch st.by_sender ANY_ID } htouch x hx
      rwa [Finset.mem_sort] at hsub

/-! ### Concrete fixtures used by witnesses and counterexamples -/

/-- Every sender value weak-referenceable. -/
def wkTrue : Val → Bool := fun _ => true

/-- Every receiver weak-referenceable. -/
def wkrTrue : Nat → Bool := fun _ => true

/-- Every weakly referenced receiver still alive. -/
def liveTrue : Nat → Bool := fun _ => true

/-- No receiver invocation raises. -/
def cfCalm : Nat → Val → Bool := fun _ _ => false

/-- Invoking receiver `7` raises. -/
def cfRaise7 : Nat → Val → Bool := fun r _ => r == 7

/-- Receiver `1` connected strongly to sender `obj 3`
(`hashable_identity (obj 3) = 5`). -/
def stConn : SignalState := connectOk wkTrue signalInit 1 (Val.obj 3) false

/-- `stConn` after `disconnect(1, obj 3)`. -/
def stDisc : SignalState := disconnect stConn 1 (Val.obj 3)

lemma reachable_stConn : Reachable stConn :=
  Reachable.connect_step wkTrue 1 (Val.obj 3) false Reachable.init

lemma reachable_stDisc : Reachable stDisc :=
  Reachable.disconnect_step 1 (Val.obj 3) reachable_stConn

/-! ### C1 -/

/-- C1, counterexample: the claim that `_by_receiver[r]` is *exactly*
the set of sender identities `s` with `r ∈ _by_sender[s]` in every
reachable state is false.  After `connect(1, obj 3)` followed by
`disconnect(1, obj 3)` — a reachable state — sender identity `5` is
still recorded in `_by_receiver[1]` although `1` is no longer a member
of `_by_sender[5]`: the sender-specific branch of `_disconnect` never
updates `_by_receiver`. -/
theorem byReceiver_exactness_fails : Reachable stDisc ∧
    5 ∈ (stDisc.by_receiver 1).getD ∅ ∧ 1 ∉ (stDisc.by_sender 5).getD ∅ :=
  ⟨reachable_stDisc, by decide, by decide⟩

/-- C1, amended: in every reachable state, `_by_receiver[r]` contains
every sender identity `s` such that `r ∈ _by_sender[s]`; the
containment can be strict (stale entries survive sender-specific
disconnects), so only this superset direction of the claimed equality
holds. -/
theorem byReceiver_superset_of_bySender {st : SignalState} (h : Reachable st) :
    ∀ r s, r ∈ (st.by_sender s).getD ∅ → s ∈ (st.by_receiver r).getD ∅ :=
  (reachable_inv h).1

theorem byReceiver_superset_of_bySender_witness :
    5 ∈ (stConn.by_receiver 1).getD ∅ :=
  byReceiver_superset_of_bySender reachable_stConn 1 5 (by decide)

/-! ### C2 -/

/-- C2, counterexample: `has_receivers_for` does not answer "does the
sender identity have a non-empty `_by_sender` bucket".  In the
reachable state `stDisc` every receiver of `obj 3` has been
disconnected (its bucket is empty) and no receiver is registered under
`ANY_ID`, yet `has_receivers_for` answers `true`, because the code
tests key *presence* of the sender identity in `_by_sender`. -/
theorem hasReceiversFor_nonempty_bucket_fails : Reachable stDisc ∧
    (stDisc.by_sender ANY_ID).getD ∅ = ∅ ∧
    (stDisc.by_sender (hashable_identity (Val.obj 3))).getD ∅ = ∅ ∧
    has_receivers_for stDisc (Val.obj 3) = true :=
  ⟨reachable_stDisc, by decide, by decide, by decide⟩

/-- C2, amended: `has_receivers_for sender` returns true iff some
receiver is registered at all, and either the `ANY_ID` bucket is
non-empty, or the sender is not `ANY` and its identity is present as a
*key* of `_by_sender` — key presence rather than bucket non-emptiness,
so an empty bucket left behind by a disconnect still yields `true`. -/
theorem hasReceiversFor_characterization (st : SignalState) (sender : Val) :
    has_receivers_for st sender = true ↔
      st.rkeys ≠ ∅ ∧ ((st.by_sender ANY_ID).getD ∅ ≠ ∅ ∨
        (sender ≠ Val.any ∧ (st.by_sender (hashable_identity sender)).isSome = true)) := by
  unfold has_receivers_for
  by_cases h1 : st.rkeys = ∅
  · simp [h1]
  · by_cases h2 : (st.by_sender ANY_ID).getD ∅ = ∅
    · by_cases h3 : sender = Val.any
      · simp [h1, h2, h3]
      · simp [h1, h2, h3]
    · simp [h1, h2]

/-! ### C8 -/

/-- C8: `send` on a signal whose `receivers` mapping is empty returns
the empty list with no exception and an unchanged state, uniformly in
the sender argument (none given, `None`, `ANY`, or any object) — the
fast path never looks at the sender value. -/
theorem send_no_receivers_fast_path (live : Nat → Bool) (cf : Nat → Val → Bool)
    (st : SignalState) (args : List Val) (h1 : st.rkeys = ∅)
    (h2 : args.length ≤ 1) : send live cf st args = ([], false, st) := by
  have hlen : ¬ args.length > 1 := by omega
  simp [send, hlen, h1]

theorem send_no_receivers_fast_path_witness :
    send liveTrue cfCalm signalInit [Val.any] = ([], false, signalInit) :=
  send_no_receivers_fast_path liveTrue cfCalm signalInit [Val.any]
    (by decide) (by decide)

/-! ### C9 -/

/-- C9: re-`connect`-ing an already registered receiver never replaces
the stored handle (`receivers.setdefault`): whatever handle
`receivers[r]` held before a successful `connect` — weak wrapper or
strong reference — is still the stored handle afterwards, for any
sender / weak combination.  Only the first registration determines the
handle. -/
theorem connect_first_registration_wins (wkS : Val → Bool) (wkR : Nat → Bool)
    (st st1 : SignalState) (r : Nat) (s : Val) (w : Bool) (h0 : Handle)
    (hprev : st.receivers r = some h0)
    (hok : connectCore wkS wkR st r s w = Except.ok st1) :
    st1.receivers r = some h0 := by
  unfold connectCore at hok
  by_cases hc : w = true ∧ wkR r = false
  · rw [if_pos hc] at hok; cases hok
  · rw [if_neg hc] at hok
    have hst := Except.ok.inj hok
    subst hst
    simp [connectOk, hprev]

theorem connect_first_registration_wins_witness :
    (connectOk wkTrue stConn 1 (Val.obj 9) true).receivers 1
      = some (Handle.strong 1) :=
  connect_first_registration_wins wkTrue wkrTrue stConn
    (connectOk wkTrue stConn 1 (Val.obj 9) true) 1 (Val.obj 9) true
    (Handle.strong 1) (by decide) rfl

/-! ### C6 -/

/-- Receiver `1` connected strongly both to `ANY` and to sender
`obj 3` (which is weakly tracked: `_weak_senders = {5}`). -/
def stBoth : SignalState :=
  connectOk wkTrue (connectOk wkTrue signalInit 1 Val.any false) 1 (Val.obj 3) false

lemma reachable_stBoth : Reachable stBoth :=
  Reachable.connect_step wkTrue 1 (Val.obj 3) false
    (Reachable.connect_step wkTrue 1 Val.any false Reachable.init)

/-- C6: the sender-collection callback `_cleanup_sender` for a
weakly-tracked non-`ANY` sender identity removes it from
`_weak_senders`, removes the whole `_by_sender` bucket, and discards
the sender identity from the `_by_receiver` set of exactly the
receivers that were in that bucket; `receivers` entries and every other
`_by_sender` bucket — in particular the `ANY_ID` bucket — are
unchanged, so those receivers are still matched for `ANY`. -/
theorem cleanup_sender_spec (st : SignalState) (sid : Nat)
    (_htracked : sid ∈ st.weak_senders) (h2 : sid ≠ ANY_ID) :
    (_cleanup_sender st sid).weak_senders = st.weak_senders.erase sid ∧
    (_cleanup_sender st sid).by_sender sid = none ∧
    (∀ s', s' ≠ sid → (_cleanup_sender st sid).by_sender s' = st.by_sender s') ∧
    (∀ r, r ∈ (st.by_sender sid).getD ∅ →
      (_cleanup_sender st sid).by_receiver r
        = some (((st.by_receiver r).getD ∅).erase sid)) ∧
    (∀ r, r ∉ (st.by_sender sid).getD ∅ →
      (_cleanup_sender st sid).by_receiver r = st.by_receiver r) ∧
    (_cleanup_sender st sid).receivers = st.receivers ∧
    (_cleanup_sender st sid).rkeys = st.rkeys ∧
    (∀ r, r ∈ ((_cleanup_sender st sid).by_sender ANY_ID).getD ∅ ↔
      r ∈ (st.by_sender ANY_ID).getD ∅) := by
  have hne : ANY_ID ≠ sid := fun h => h2 h.symm
  refine ⟨rfl, by simp [_cleanup_sender], fun s' hs' => by simp [_cleanup_sender, hs'],
    fun r hr => by simp [_cleanup_sender, hr],
    fun r hr => by simp [_cleanup_sender, hr], rfl, rfl, fun r => ?_⟩
  have hbs : (_cleanup_sender st sid).by_sender ANY_ID = st.by_sender ANY_ID := by
    simp [_cleanup_sender, hne]
  rw [hbs]

theorem cleanup_sender_spec_witness :
    (_cleanup_sender stBoth 5).weak_senders = stBoth.weak_senders.erase 5 ∧
    (_cleanup_sender stBoth 5).by_sender 5 = none ∧
    (1 ∈ ((_cleanup_sender stBoth 5).by_sender ANY_ID).getD ∅ ↔
      1 ∈ (stBoth.by_sender ANY_ID).getD ∅) := by
  have h := cleanup_sender_spec stBoth 5 (by decide) (by decide)
  exact ⟨h.1, h.2.1, h.2.2.2.2.2.2.2 1⟩

/-! ### C7 -/

/-- C7: weak-reference failures inside `connect`: a `TypeError` from
building the *receiver* weakref (weak requested, receiver not
weak-referenceable) propagates to the caller of `connect` with no state
change; sender non-weak-referenceability is swallowed — the connection
completes exactly as it otherwise would, except that `_weak_senders`
is left untouched (sender tracking is skipped). -/
theorem connect_unweakreferenceable (wkS : Val → Bool) (wkR : Nat → Bool)
    (live : Nat → Bool) (cf : Nat → Val → Bool) (selfIsMeta : Bool) (selfVal : Val)
    (st meta : SignalState) (r : Nat) (s : Val) (w : Bool) :
    (w = true → wkR r = false →
      connect wkS wkR live cf selfIsMeta selfVal st meta r s w
        = (Except.error (), st, meta)) ∧
    (wkS s = false → ∀ st1, connectCore wkS wkR st r s w = Except.ok st1 →
      st1 = { connectOk (fun _ => true) st r s w with
                weak_senders := st.weak_senders }) := by
  constructor
  · intro hw hr
    unfold connect connectCore
    rw [if_pos ⟨hw, hr⟩]
  · intro hws st1 hok
    unfold connectCore at hok
    by_cases hc : w = true ∧ wkR r = false
    · rw [if_pos hc] at hok; cases hok
    · rw [if_neg hc] at hok
      have hst := Except.ok.inj hok
      subst hst
      apply SignalState.ext
      · rfl
      · rfl
      · rfl
      · rfl
      · simp [connectOk, hws]

theorem connect_unweakreferenceable_witness :
    connect wkTrue (fun _ => false) liveTrue cfCalm false (Val.obj 4)
        signalInit signalInit 1 (Val.obj 3) true
      = (Except.error (), signalInit, signalInit) ∧
    connectOk (fun _ => false) signalInit 1 (Val.obj 3) false
      = { connectOk (fun _ => true) signalInit 1 (Val.obj 3) false with
            weak_senders := signalInit.weak_senders } :=
  ⟨(connect_unweakreferenceable wkTrue (fun _ => false) liveTrue cfCalm false
      (Val.obj 4) signalInit signalInit 1 (Val.obj 3) true).1 rfl rfl,
   (connect_unweakreferenceable (fun _ => false) wkrTrue liveTrue cfCalm false
      (Val.obj 4) signalInit signalInit 1 (Val.obj 3) false).2 rfl
      (connectOk (fun _ => false) signalInit 1 (Val.obj 3) false) rfl⟩

/-! ### C5 -/

/-- C5: when the meta signal (`receiver_connected`) has receivers, the
target signal is not the meta signal itself, and one of the meta
receivers raises during the broadcast, `connect` re-raises the
exception to its caller and rolls the just-added pairing back by
performing `disconnect(receiver, sender)` on the registered state. -/
theorem connect_meta_rollback (wkS : Val → Bool) (wkR : Nat → Bool)
    (live : Nat → Bool) (cf : Nat → Val → Bool) (selfVal : Val)
    (st meta st1 meta1 : SignalState) (l : List Nat) (r : Nat) (s : Val) (w : Bool)
    (hok : connectCore wkS wkR st r s w = Except.ok st1)
    (hmeta : meta.rkeys ≠ ∅)
    (hraise : send live cf meta [selfVal] = (l, true, meta1)) :
    connect wkS wkR live cf false selfVal st meta r s w =
      (Except.error (), disconnect st1 r s, meta1) := by
  simp only [connect, hok, hraise]
  simp [hmeta]

/-- The meta signal with one strong receiver `7` registered for `ANY`. -/
def metaOne : SignalState := connectOk wkTrue signalInit 7 Val.any false

lemma send_metaOne_raises :
    send liveTrue cfRaise7 metaOne [Val.obj 4]
      = ([7], true, { metaOne with by_sender := ddTouch metaOne.by_sender ANY_ID }) := by
  have hc : candidateIds metaOne (hashable_identity (Val.obj 4)) = ({7} : Finset Nat) := by
    decide
  have hlen : ¬ ([Val.obj 4] : List Val).length > 1 := by decide
  have hk : metaOne.rkeys ≠ ∅ := by decide
  have hstep : send liveTrue cfRaise7 metaOne [Val.obj 4]
      = sendLoop liveTrue cfRaise7 (Val.obj 4)
          ((candidateIds metaOne (hashable_identity (Val.obj 4))).sort (· ≤ ·))
          { metaOne with by_sender := ddTouch metaOne.by_sender ANY_ID } := by
    simp [send, hlen, hk]
  rw [hstep, hc, Finset.sort_singleton]
  rfl

theorem connect_meta_rollback_witness :
    connect wkTrue wkrTrue liveTrue cfRaise7 false (Val.obj 4)
        signalInit metaOne 1 (Val.obj 3) true
      = (Except.error (),
         disconnect (connectOk wkTrue signalInit 1 (Val.obj 3) true) 1 (Val.obj 3),
         { metaOne with by_sender := ddTouch metaOne.by_sender ANY_ID }) :=
  connect_meta_rollback wkTrue wkrTrue liveTrue cfRaise7 (Val.obj 4) signalInit metaOne
    (connectOk wkTrue signalInit 1 (Val.obj 3) true)
    { metaOne with by_sender := ddTouch metaOne.by_sender ANY_ID } [7] 1 (Val.obj 3) true
    rfl (by decide) send_metaOne_raises

/-! ### C10 -/

/-- C10: `disconnect(r, s)` for a sender `s` whose identity was never
registered completes without error but — through the `defaultdict`
read in `_disconnect` — inserts an empty `_by_sender` bucket keyed by
`s`'s identity; afterwards `has_receivers_for s` answers `true`
although `receivers_for s` yields only receivers registered under
`ANY_ID`. -/
theorem disconnect_unseen_sender_quirk (st : SignalState) (r : Nat) (s : Val)
    (live : Nat → Bool) (hre : Reachable st) (hk : st.rkeys ≠ ∅)
    (hs : s ≠ Val.any)
    (hnone : st.by_sender (hashable_identity s) = none) :
    (disconnect st r s).by_sender (hashable_identity s) = some ∅ ∧
    has_receivers_for (disconnect st r s) s = true ∧
    (∀ x, x ∈ (receivers_for live (disconnect st r s) s).1 →
      x ∈ ((disconnect st r s).by_sender ANY_ID).getD ∅) := by
  have hsid : senderIdOf s = hashable_identity s := by simp [senderIdOf, hs]
  have hid0 : hashable_identity s ≠ ANY_ID := hashable_identity_ne_any_id s
  have hbucket : (disconnect st r s).by_sender (hashable_identity s) = some ∅ := by
    simp [disconnect, _disconnect, hsid, hid0, hnone]
  have hrk : (disconnect st r s).rkeys = st.rkeys := by
    simp [disconnect, _disconnect, hsid, hid0]
  have hany : (disconnect st r s).by_sender ANY_ID = st.by_sender ANY_ID := by
    have hne : ANY_ID ≠ hashable_identity s := fun h => hid0 h.symm
    simp [disconnect, _disconnect, hsid, hid0, hne]
  refine ⟨hbucket, ?_, ?_⟩
  · unfold has_receivers_for
    rw [hrk, if_neg hk]
    by_cases hb : ((disconnect st r s).by_sender ANY_ID).getD ∅ = ∅
    · rw [if_neg (by simpa using hb), if_neg hs, hbucket]
      rfl
    · rw [if_pos (by simpa using hb)]
  · intro x hx
    have hwf : HandleWF (disconnect st r s) :=
      (reachable_inv (Reachable.disconnect_step r s hre)).2
    have hk2 : (disconnect st r s).rkeys ≠ ∅ := by rw [hrk]; exact hk
    rw [mem_receivers_for live _ s hwf hk2 x] at hx
    rcases mem_candidateIds _ _ _ hx.1 with h | h
    · exact h
    · rw [hbucket] at h
      simp at h

/-- Receiver `1` registered for `ANY` only. -/
def stAnyOnly : SignalState := connectOk wkTrue signalInit 1 Val.any false

lemma reachable_stAnyOnly : Reachable stAnyOnly :=
  Reachable.connect_step wkTrue 1 Val.any false Reachable.init

theorem disconnect_unseen_sender_quirk_witness :
    (disconnect stAnyOnly 2 (Val.obj 9)).by_sender 11 = some ∅ ∧
    has_receivers_for (disconnect stAnyOnly 2 (Val.obj 9)) (Val.obj 9) = true := by
  have h := disconnect_unseen_sender_quirk stAnyOnly 2 (Val.obj 9) liveTrue
    reachable_stAnyOnly (by decide) (by decide) (by decide)
  exact ⟨h.1, h.2.1⟩

/-! ### C3 -/

/-- C3: disconnect is exact.  For a receiver `r` registered both under
`ANY` and under a specific sender `A`: `disconnect(r, A)` removes `r`
from `A`'s `_by_sender` bucket only, leaving `receivers`, `rkeys`,
`_by_receiver` and every other `_by_sender` bucket — `ANY_ID`'s
included — unchanged, so `r` is no longer dispatched to per its `A`
registration; `disconnect(r, ANY)` removes `r` from every `_by_sender`
bucket and deletes its entries from `receivers` and `_by_receiver`, so
no send from the resulting state invokes `r`. -/
theorem disconnect_exact (st : SignalState) (r : Nat) (A : Val)
    (hre : Reachable st) (hA : A ≠ Val.any)
    (hany : r ∈ (st.by_sender ANY_ID).getD ∅)
    (_hspec : r ∈ (st.by_sender (hashable_identity A)).getD ∅) :
    ((disconnect st r A).by_sender (hashable_identity A)
        = some (((st.by_sender (hashable_identity A)).getD ∅).erase r)) ∧
    r ∉ ((disconnect st r A).by_sender (hashable_identity A)).getD ∅ ∧
    (disconnect st r A).receivers = st.receivers ∧
    (disconnect st r A).rkeys = st.rkeys ∧
    (disconnect st r A).by_receiver = st.by_receiver ∧
    (∀ s', s' ≠ hashable_identity A →
      (disconnect st r A).by_sender s' = st.by_sender s') ∧
    (∀ s', r ∉ ((disconnect st r Val.any).by_sender s').getD ∅) ∧
    (disconnect st r Val.any).receivers r = none ∧
    (disconnect st r Val.any).by_receiver r = none ∧
    (∀ (live : Nat → Bool) (cf : Nat → Val → Bool) (args : List Val),
      r ∉ (send live cf (disconnect st r Val.any) args).1) := by
  have hsid : senderIdOf A = hashable_identity A := by simp [senderIdOf, hA]
  have hid0 : hashable_identity A ≠ ANY_ID := hashable_identity_ne_any_id A
  have hdd : disconnect st r Val.any = _disconnect st r ANY_ID := by
    simp [disconnect, senderIdOf]
  have hpop : (st.by_receiver r).getD ∅ ≠ ∅ :=
    Finset.ne_empty_of_mem ((reachable_inv hre).1 r ANY_ID hany)
  have hnob : ∀ s', r ∉ ((disconnect st r Val.any).by_sender s').getD ∅ := by
    intro s'
    rw [hdd]
    simp only [_disconnect, ANY_ID, if_pos, hpop, ne_eq, not_false_eq_true, ite_true]
    cases hbs : st.by_sender s' with
    | none => simp
    | some b => simp [hbs]
  refine ⟨by simp [disconnect, _disconnect, hsid, hid0],
    ?_,
    by simp [disconnect, _disconnect, hsid, hid0],
    by simp [disconnect, _disconnect, hsid, hid0],
    by simp [disconnect, _disconnect, hsid, hid0],
    ?_, hnob, ?_, ?_, ?_⟩
  · have h1 : (disconnect st r A).by_sender (hashable_identity A)
        = some (((st.by_sender (hashable_identity A)).getD ∅).erase r) := by
      simp [disconnect, _disconnect, hsid, hid0]
    rw [h1]
    simp
  · intro s' hs'
    simp [disconnect, _disconnect, hsid, hid0, hs']
  · rw [hdd]
    simp [_disconnect]
  · rw [hdd]
    simp [_disconnect]
  · intro live cf args hmem
    have hwf : HandleWF (disconnect st r Val.any) :=
      (reachable_inv (Reachable.disconnect_step r Val.any hre)).2
    have hc := send_invoked_mem live cf _ args hwf r hmem
    rcases mem_candidateIds _ _ _ hc with h | h
    · exact hnob ANY_ID h
    · exact hnob _ h

theorem disconnect_exact_witness :
    1 ∉ ((disconnect stBoth 1 (Val.obj 3)).by_sender 5).getD ∅ ∧
    (disconnect stBoth 1 (Val.obj 3)).by_sender 0 = stBoth.by_sender 0 ∧
    (disconnect stBoth 1 Val.any).receivers 1 = none ∧
    1 ∉ (send liveTrue cfCalm (disconnect stBoth 1 Val.any) [Val.obj 3]).1 := by
  have h := disconnect_exact stBoth 1 (Val.obj 3) reachable_stBoth
    (by decide) (by decide) (by decide)
  exact ⟨h.2.1, h.2.2.2.2.2.1 0 (by decide), h.2.2.2.2.2.2.2.1,
    h.2.2.2.2.2.2.2.2.2 liveTrue cfCalm [Val.obj 3]⟩

/-! ### C4 -/

/-- C4: `receivers_for` candidate selection.  With at least one
registered receiver and a non-`ANY` sender: the yielded receivers are
exactly the live ones among `candidateIds` — the union of the `ANY_ID`
bucket and the sender's bucket when the sender's identity is a
`_by_sender` key, the `ANY_ID` bucket alone when it is not;
consequently a receiver registered only under sender `A` is never
invoked by a send to a sender of a different identity. -/
theorem receiversFor_union_spec (st : SignalState) (sender : Val) (live : Nat → Bool)
    (hre : Reachable st) (hk : st.rkeys ≠ ∅) (_hs : sender ≠ Val.any) :
    (∀ x, x ∈ (receivers_for live st sender).1 ↔
        x ∈ candidateIds st (hashable_identity sender) ∧ liveAt live st x = true) ∧
    ((st.by_sender (hashable_identity sender)).isSome = true →
        candidateIds st (hashable_identity sender)
          = (st.by_sender ANY_ID).getD ∅
              ∪ (st.by_sender (hashable_identity sender)).getD ∅) ∧
    (st.by_sender (hashable_identity sender) = none →
        candidateIds st (hashable_identity sender) = (st.by_sender ANY_ID).getD ∅) ∧
    (∀ (r : Nat) (A B : Val) (cf : Nat → Val → Bool),
        (∀ s', r ∈ (st.by_sender s').getD ∅ → s' = hashable_identity A) →
        hashable_identity B ≠ hashable_identity A →
        r ∉ (send live cf st [B]).1) := by
  refine ⟨fun x => mem_receivers_for live st sender (reachable_inv hre).2 hk x,
    fun h => by simp [candidateIds, h],
    fun h => by simp [candidateIds, h],
    fun r A B cf honly hne hmem => ?_⟩
  have hc := send_invoked_mem live cf st [B] (reachable_inv hre).2 r hmem
  rcases mem_candidateIds _ _ _ hc with h | h
  · exact hashable_identity_ne_any_id A (honly ANY_ID h).symm
  · exact hne (honly _ h)

/-- Receiver `1` registered for `ANY` and receiver `2` registered for
sender `obj 3` only, both strong. -/
def stW4 : SignalState :=
  connectOk wkTrue (connectOk wkTrue signalInit 1 Val.any false) 2 (Val.obj 3) false

lemma reachable_stW4 : Reachable stW4 :=
  Reachable.connect_step wkTrue 2 (Val.obj 3) false
    (Reachable.connect_step wkTrue 1 Val.any false Reachable.init)

theorem receiversFor_union_spec_witness :
    2 ∈ (receivers_for liveTrue stW4 (Val.obj 3)).1 ∧
    candidateIds stW4 5 = (stW4.by_sender 0).getD ∅ ∪ (stW4.by_sender 5).getD ∅ ∧
    2 ∉ (send liveTrue cfCalm stW4 [Val.obj 4]).1 := by
  have h := receiversFor_union_spec stW4 (Val.obj 3) liveTrue reachable_stW4
    (by decide) (by decide)
  have honly : ∀ s', 2 ∈ (stW4.by_sender s').getD ∅ →
      s' = hashable_identity (Val.obj 3) := by
    intro s' hmem
    by_cases h5 : s' = 5
    · exact h5
    · exfalso
      by_cases h0 : s' = 0
      · subst h0; revert hmem; decide
      · have hnone : stW4.by_sender s' = none := by
          simp [stW4, connectOk, signalInit, senderIdOf, hashable_identity,
            ANY_ID, h5, h0]
        rw [hnone] at hmem
        simp at hmem
  exact ⟨(h.1 2).mpr (by decide), h.2.1 (by decide),
    h.2.2.2 2 (Val.obj 3) (Val.obj 4) cfCalm honly (by decide)⟩

end Blinker
